import Mathlib

/-!
# traefik-ingressroute-exporter: the discovery → probe → reconcile cycle

A shallow embedding of `pkg/start/start.go`.

* Go strings are Lean `String`s; slicing `s[i:j]` is `take`/`drop` on the
  underlying character list. The strings cut off by the extractor are ASCII,
  so cutting characters and cutting bytes agree.
* A Go `map[string]V` is an association list read with `List.lookup`; a nil
  map is `none`.
* A Go pointer that may be nil is an `Option`; dereferencing nil is a panic,
  which ends the process.
* `float64` results are only ever the literals `0` and `1`; they are kept as
  rationals.
* Goroutines communicate over `domainChan`; the channel is modelled by the
  sequence of values still to be received from it.
-/

namespace Exporter

/-! ## The Go standard library functions used by the extractor -/

namespace strings

/-- Go `strings.HasSuffix`:
`len(s) >= len(suffix) && s[len(s)-len(suffix):] == suffix`. -/
def HasSuffix (s suffix : String) : Bool :=
  decide (s.data.length ≥ suffix.data.length) &&
    decide (s.data.drop (s.data.length - suffix.data.length) = suffix.data)

/-- Go `strings.TrimSuffix`:
`if HasSuffix(s, suffix) { return s[:len(s)-len(suffix)] }; return s`. -/
def TrimSuffix (s suffix : String) : String :=
  if HasSuffix s suffix then ⟨s.data.take (s.data.length - suffix.data.length)⟩ else s

/-- Go `strings.HasPrefix`:
`len(s) >= len(prefix) && s[:len(prefix)] == prefix`. -/
def HasPrefix (s pre : String) : Bool :=
  decide (s.data.length ≥ pre.data.length) &&
    decide (s.data.take pre.data.length = pre.data)

/-- Go `strings.TrimPrefix`:
`if HasPrefix(s, prefix) { return s[len(prefix):] }; return s`. -/
def TrimPrefix (s pre : String) : String :=
  if HasPrefix s pre then ⟨s.data.drop pre.data.length⟩ else s

end strings

/-! ## Routing resources and the domain extractor -/

/-- A Go `map[string]V`, as an association list. -/
abbrev GoMap (V : Type) := List (String × V)

/-- Go's two-result map index `v, found := m[k]`: the zero value and `false`
when the key is absent. -/
def GoMap.index (m : GoMap String) (k : String) : String × Bool :=
  match m.lookup k with
  | some v => (v, true)
  | none => ("", false)

/-- The part of `unstructured.Unstructured` that the exporter reads: the
object's name and its `.metadata.annotations` (nil when there are none). -/
structure Unstructured where
  name : String
  annotations : Option (GoMap String)

def Unstructured.GetName (u : Unstructured) : String := u.name

def Unstructured.GetAnnotations (u : Unstructured) : Option (GoMap String) := u.annotations

def domainKey : String := "traefik-ingressroute-exporter/domain"

def pathKey : String := "traefik-ingressroute-exporter/path"

/-- `getDomainFromAnnotations` (start.go, lines 180-200). -/
def getDomainFromAnnotations (ingressRoute : Unstructured) : String :=
  match ingressRoute.GetAnnotations with
  | none => ""
  | some annotations =>
    let (domain, domainFound) := annotations.index domainKey
    let (path, pathFound) := annotations.index pathKey
    if !domainFound || !pathFound then
      ""
    else
      let domain := strings.TrimSuffix domain "/"
      let domain := strings.TrimSuffix domain "/*"
      let path := strings.TrimPrefix path "/"
      let domain := domain ++ "/" ++ path
      domain

/-- Reading key `k` of a resource's annotations, nil map included: `none`
when the key is absent. -/
def Unstructured.annotationAt (u : Unstructured) (k : String) : Option String :=
  match u.GetAnnotations with
  | none => none
  | some m => m.lookup k

/-! ## The probe -/

/-- The outcome of `http.Get`: a transport error (connection refused, DNS
failure, timeout), or a response, of which only the status code is read. -/
inductive GetOutcome where
  | transportError (err : String)
  | response (StatusCode : Int)

/-- Go `http.StatusOK`. -/
def StatusOK : Int := 200

/-- `getDomainStatus` (start.go, lines 202-220); `get` is `http.Get`. -/
def getDomainStatus (get : String → GetOutcome) (domain : String) : ℚ :=
  match get ("https://" ++ domain) with
  | .transportError _ => 0
  | .response StatusCode => if StatusCode = StatusOK then 1 else 0

/-! ## Shared state: the gauge vector and the registry -/

/-- Go `m[k] = v`. -/
def GoMap.set {V : Type} (m : GoMap V) (k : String) (v : V) : GoMap V :=
  (k, v) :: m.filter (fun e => e.1 != k)

/-- Go `delete(m, k)`. -/
def GoMap.delete {V : Type} (m : GoMap V) (k : String) : GoMap V :=
  m.filter (fun e => e.1 != k)

/-- The keys a `range` over the map visits. -/
def GoMap.keys {V : Type} (m : GoMap V) : List String := m.map Prod.fst

/-- The package-level variables `tenantUpMetric` (one `tenant_up` series per
`domain` label value) and `domainsMap` (the registry). -/
structure State where
  tenantUpMetric : GoMap ℚ
  domainsMap : GoMap Bool

/-! ## The cluster API -/

/-- The part of `unstructured.UnstructuredList` that is read. -/
structure UnstructuredList where
  Items : List Unstructured

/-- The two results of a dynamic-client `List` call: the list pointer (nil
is `none`) and the error (nil is `none`). -/
structure ListResult where
  list : Option UnstructuredList
  err : Option String

/-- An unrecovered Go panic; it terminates the process. -/
inductive Panic where
  | nilDereference
  deriving DecidableEq

/-- What the outside world answers during one cycle: the namespace list
call, the routing-resource list call of each namespace, and `http.Get`. -/
structure Cluster where
  namespaces : ListResult
  ingressRoutes : String → ListResult
  get : String → GetOutcome

/-! ## One cycle of the loop in `Main` -/

/-- The goroutine started for namespace `ns` (lines 80-110): the values it
sends on `domainChan`, in order. The error of the list call is only logged;
`ingressRoutes.Items` then dereferences the returned pointer. -/
def namespaceTask (c : Cluster) (ns : String) : Except Panic (List String) :=
  let r := c.ingressRoutes ns
  match r.list with
  | none => .error .nilDereference
  | some ingressRoutes =>
    .ok (ingressRoutes.Items.filterMap fun ingressRoute =>
      let domain := getDomainFromAnnotations ingressRoute
      if r.err.isSome then none
      else if domain != "" then some domain
      else none)

/-- Lines 63-111: the namespace list call, whose error is only logged, then
one `namespaceTask` per item of `namespaceList.Items`. The result is every
value sent on `domainChan` in the cycle. -/
def sends (c : Cluster) : Except Panic (List String) :=
  match c.namespaces.list with
  | none => .error .nilDereference
  | some namespaceList => do
    let perNamespace ← namespaceList.Items.mapM (fun namespace_ => namespaceTask c namespace_.GetName)
    pure perNamespace.flatten

/-- The channel `domainChan`, as the values that receives will still obtain
from it until it reports closed. -/
structure Chan where
  pending : List String

/-- The loop `for domain := range domainChan` of line 123: it ends when the
channel is closed and has handed over every value; nothing is left. -/
def Chan.rangeAll (ch : Chan) : List String × Chan := (ch.pending, ⟨[]⟩)

/-- The loop of lines 151-156, `for d := range domainChan` with a `break`
at the first `d` equal to `domain`: whether one was found, and what is left
in the channel. -/
def Chan.rangeFind (domain : String) : List String → Bool × List String
  | [] => (false, [])
  | d :: rest => if domain == d then (true, rest) else Chan.rangeFind domain rest

/-- The goroutine of lines 125-138 for one received domain `d`. -/
def probe (c : Cluster) (st : State) (d : String) : State :=
  let status := getDomainStatus c.get d
  { tenantUpMetric := st.tenantUpMetric.set d status
    domainsMap := st.domainsMap.set d true }

/-- Lines 123-142: one `probe` per received domain, all finished at
`wg.Wait()`. -/
def probeAll (c : Cluster) (st : State) (received : List String) : State :=
  received.foldl (probe c) st

/-- The body of the loop of lines 149-165 for one key of `domainsMap`. -/
def reconcileStep (acc : Chan × State) (domain : String) : Chan × State :=
  let (found, rest) := Chan.rangeFind domain acc.1.pending
  if !found then
    (⟨rest⟩, { tenantUpMetric := acc.2.tenantUpMetric.delete domain
               domainsMap := acc.2.domainsMap.delete domain })
  else
    (⟨rest⟩, acc.2)

/-- Lines 144-168: the reconciliation loop over the keys of `domainsMap`. -/
def reconcile (domainChan : Chan) (st : State) : Chan × State :=
  st.domainsMap.keys.foldl reconcileStep (domainChan, st)

/-- Lines 113-168 for the values `sent` on `domainChan`, in the order the
receiving loop obtains them. Every send is taken to be received before the
channel is closed, 30 seconds into the cycle. -/
def cycleBody (c : Cluster) (st : State) (sent : List String) : State :=
  let domainChan : Chan := ⟨sent⟩
  let (received, domainChan) := domainChan.rangeAll
  let st := probeAll c st received
  (reconcile domainChan st).2

/-- One iteration of the `for` loop of lines 61-169. -/
def cycle (c : Cluster) (st : State) : Except Panic State := do
  let sent ← sends c
  pure (cycleBody c st sent)

/-- The loop of lines 61-169 over the successive answers of the cluster: a
panic in a cycle ends the process, so no later cycle runs. -/
def runCycles : List Cluster → State → Except Panic State
  | [], st => .ok st
  | c :: cs, st => do
    let st ← cycle c st
    runCycles cs st

/-! ### The specification's wording of the canonicalisation -/

/-- The spec's "`s` with one trailing `suffix` removed, if present": `r` is
that string. -/
def TrailingRemoved (suffix s r : String) : Prop :=
  s = r ++ suffix ∨ ((∀ x : String, s ≠ x ++ suffix) ∧ r = s)

/-- The spec's "`s` with one leading `pre` removed, if present": `r` is that
string. -/
def LeadingRemoved (pre s r : String) : Prop :=
  s = pre ++ r ∨ ((∀ x : String, s ≠ pre ++ x) ∧ r = s)

/-! ## Concrete inputs -/

/-- A routing resource with both annotations; its key is `a.example.com/x`. -/
def routeAX : Unstructured :=
  ⟨"route-a", some [(domainKey, "a.example.com"), (pathKey, "/x")]⟩

/-- One namespace `a` holding `routeAX`; every list call succeeds and every
GET answers 200. -/
def clusterOneRoute : Cluster :=
  { namespaces := ⟨some ⟨[⟨"a", none⟩]⟩, none⟩
    ingressRoutes := fun _ => ⟨some ⟨[routeAX]⟩, none⟩
    get := fun _ => .response 200 }

/-- Namespaces `a` and `b`; the routing-resource list call fails in `a`
(error, nil list) and returns `routeAX` in `b`. -/
def clusterOneNamespaceFails : Cluster :=
  { namespaces := ⟨some ⟨[⟨"a", none⟩, ⟨"b", none⟩]⟩, none⟩
    ingressRoutes := fun ns =>
      if ns = "a" then ⟨none, some "forbidden"⟩ else ⟨some ⟨[routeAX]⟩, none⟩
    get := fun _ => .response 200 }

/-- The state at process start: no series, empty registry. -/
def emptyState : State := ⟨[], []⟩

/-- A state whose registry and gauge vector both hold `old.example.com/`. -/
def staleState : State := ⟨[("old.example.com/", 1)], [("old.example.com/", true)]⟩

/-! ## Lemmas on the string functions -/

theorem trimSuffix_trailingRemoved (s suffix : String) :
    TrailingRemoved suffix s (strings.TrimSuffix s suffix) := by
  unfold TrailingRemoved strings.TrimSuffix
  by_cases h : strings.HasSuffix s suffix = true
  · left
    simp only [h, if_true]
    simp only [strings.HasSuffix, Bool.and_eq_true, decide_eq_true_eq] at h
    apply String.ext
    simp only [String.data_append]
    conv_lhs => rw [← List.take_append_drop (s.data.length - suffix.data.length) s.data]
    rw [h.2]
  · right
    simp only [h, Bool.false_eq_true, if_false, and_true]
    intro x hx
    apply h
    simp only [strings.HasSuffix, Bool.and_eq_true, decide_eq_true_eq]
    subst hx
    simp [String.data_append]

theorem trimPrefix_leadingRemoved (s pre : String) :
    LeadingRemoved pre s (strings.TrimPrefix s pre) := by
  unfold LeadingRemoved strings.TrimPrefix
  by_cases h : strings.HasPrefix s pre = true
  · left
    simp only [h, if_true]
    simp only [strings.HasPrefix, Bool.and_eq_true, decide_eq_true_eq] at h
    apply String.ext
    simp only [String.data_append]
    conv_lhs => rw [← List.take_append_drop pre.data.length s.data]
    rw [h.2]
  · right
    simp only [h, Bool.false_eq_true, if_false, and_true]
    intro x hx
    apply h
    simp only [strings.HasPrefix, Bool.and_eq_true, decide_eq_true_eq]
    subst hx
    simp [String.data_append]

/-! ## Lemmas on the extractor -/

theorem getDomainFromAnnotations_of_both (ir : Unstructured) (d p : String)
    (hd : ir.annotationAt domainKey = some d) (hp : ir.annotationAt pathKey = some p) :
    getDomainFromAnnotations ir =
      strings.TrimSuffix (strings.TrimSuffix d "/") "/*" ++ "/" ++ strings.TrimPrefix p "/" := by
  unfold Unstructured.annotationAt at hd hp
  unfold getDomainFromAnnotations
  cases hm : ir.GetAnnotations with
  | none => simp [hm] at hd
  | some m =>
    simp only [hm] at hd hp
    simp [GoMap.index, hd, hp]

theorem getDomainFromAnnotations_of_missing (ir : Unstructured)
    (h : ir.annotationAt domainKey = none ∨ ir.annotationAt pathKey = none) :
    getDomainFromAnnotations ir = "" := by
  unfold Unstructured.annotationAt at h
  unfold getDomainFromAnnotations
  cases hm : ir.GetAnnotations with
  | none => rfl
  | some m =>
    simp only [hm] at h
    rcases h with h | h
    · simp [GoMap.index, h]
    · cases hd : List.lookup domainKey m <;> simp [GoMap.index, h, hd]

theorem append_slash_ne_empty (a b : String) : a ++ "/" ++ b ≠ "" := by
  intro h
  have := congrArg String.data h
  simp [String.data_append] at this

theorem trailingRemoved_unique (suffix s r : String) (h : TrailingRemoved suffix s r) :
    r = strings.TrimSuffix s suffix := by
  rcases trimSuffix_trailingRemoved s suffix with ht | ⟨hno, ht⟩
  · rcases h with h | ⟨hno, _⟩
    · have hdata := congrArg String.data (h.symm.trans ht)
      simp only [String.data_append] at hdata
      exact String.ext (List.append_cancel_right hdata)
    · exact absurd ht (hno _)
  · rcases h with h | ⟨_, h⟩
    · exact absurd h (hno _)
    · rw [ht, h]

theorem leadingRemoved_unique (pre s r : String) (h : LeadingRemoved pre s r) :
    r = strings.TrimPrefix s pre := by
  rcases trimPrefix_leadingRemoved s pre with ht | ⟨hno, ht⟩
  · rcases h with h | ⟨hno, _⟩
    · have hdata := congrArg String.data (h.symm.trans ht)
      simp only [String.data_append] at hdata
      exact String.ext (List.append_cancel_left hdata)
    · exact absurd ht (hno _)
  · rcases h with h | ⟨_, h⟩
    · exact absurd h (hno _)
    · rw [ht, h]

/-! ## The extractor: claims C1, C2, C9 -/

/-- C1: for a resource whose annotation map holds both keys, with values `d`
and `p`, `getDomainFromAnnotations` returns `d2 ++ "/" ++ p1`, where `d1` is
`d` with one trailing `/` removed if present, `d2` is `d1` with a trailing
`/*` removed if present, and `p1` is `p` with one leading `/` removed if
present: such strings exist, and the result is that of any such strings. In
particular `example.com/` with `/foo` gives `example.com/foo`, and
`example.com/*` with `/` gives `example.com/`. -/
theorem getDomainFromAnnotations_canonical (ir : Unstructured) (m : GoMap String)
    (d p : String) (hm : ir.GetAnnotations = some m)
    (hd : m.lookup domainKey = some d) (hp : m.lookup pathKey = some p) :
    (∃ d1 d2 p1 : String, TrailingRemoved "/" d d1 ∧ TrailingRemoved "/*" d1 d2 ∧
        LeadingRemoved "/" p p1 ∧ getDomainFromAnnotations ir = d2 ++ "/" ++ p1) ∧
    (∀ d1 d2 p1 : String, TrailingRemoved "/" d d1 → TrailingRemoved "/*" d1 d2 →
        LeadingRemoved "/" p p1 → getDomainFromAnnotations ir = d2 ++ "/" ++ p1) ∧
    (d = "example.com/" → p = "/foo" → getDomainFromAnnotations ir = "example.com/foo") ∧
    (d = "example.com/*" → p = "/" → getDomainFromAnnotations ir = "example.com/") := by
  have hd1 : ir.annotationAt domainKey = some d := by simp [Unstructured.annotationAt, hm, hd]
  have hp1 : ir.annotationAt pathKey = some p := by simp [Unstructured.annotationAt, hm, hp]
  have hres := getDomainFromAnnotations_of_both ir d p hd1 hp1
  refine ⟨⟨_, _, _, trimSuffix_trailingRemoved d "/", trimSuffix_trailingRemoved _ "/*",
    trimPrefix_leadingRemoved p "/", hres⟩, ?_, ?_, ?_⟩
  · intro d1 d2 p1 h1 h2 h3
    have e1 := trailingRemoved_unique _ _ _ h1
    subst e1
    rw [trailingRemoved_unique _ _ _ h2, leadingRemoved_unique _ _ _ h3]
    exact hres
  · intro ed ep
    rw [hres, ed, ep]
    decide
  · intro ed ep
    rw [hres, ed, ep]
    decide

/-- C1 at the resource `{domain: "example.com/*", path: "/"}`. -/
theorem getDomainFromAnnotations_canonical_witness :
    getDomainFromAnnotations
      ⟨"route", some [(domainKey, "example.com/*"), (pathKey, "/")]⟩ = "example.com/" :=
  (getDomainFromAnnotations_canonical
    ⟨"route", some [(domainKey, "example.com/*"), (pathKey, "/")]⟩
    [(domainKey, "example.com/*"), (pathKey, "/")] "example.com/*" "/" rfl
    (by decide) (by decide)).2.2.2 rfl rfl

/-- C2: `getDomainFromAnnotations` returns the empty string exactly when the
annotation map is nil or lacks the domain key or the path key; with both
keys present, whatever their values, the result is not empty, and a
namespace task whose list call succeeded sends the key of every such
resource: the resource is not skipped. -/
theorem getDomainFromAnnotations_empty_iff (ir : Unstructured) :
    (getDomainFromAnnotations ir = "" ↔
      (ir.GetAnnotations = none ∨
        ∃ m, ir.GetAnnotations = some m ∧
          (m.lookup domainKey = none ∨ m.lookup pathKey = none))) ∧
    (∀ m d p, ir.GetAnnotations = some m → m.lookup domainKey = some d →
      m.lookup pathKey = some p → getDomainFromAnnotations ir ≠ "") ∧
    (∀ (c : Cluster) (ns : String) (items : List Unstructured) m d p,
      c.ingressRoutes ns = ⟨some ⟨items⟩, none⟩ → ir ∈ items →
      ir.GetAnnotations = some m → m.lookup domainKey = some d →
      m.lookup pathKey = some p →
      ∃ sent, namespaceTask c ns = .ok sent ∧ getDomainFromAnnotations ir ∈ sent) := by
  have hboth : ∀ m d p, ir.GetAnnotations = some m → m.lookup domainKey = some d →
      m.lookup pathKey = some p → getDomainFromAnnotations ir ≠ "" := by
    intro m d p hm hd hp
    rw [getDomainFromAnnotations_of_both ir d p (by simp [Unstructured.annotationAt, hm, hd])
      (by simp [Unstructured.annotationAt, hm, hp])]
    exact append_slash_ne_empty _ _
  refine ⟨⟨?_, ?_⟩, hboth, ?_⟩
  rotate_left 2
  · intro c ns items m d p hc hmem hm hd hp
    refine ⟨_, by simp only [namespaceTask, hc]; rfl, ?_⟩
    rw [List.mem_filterMap]
    refine ⟨ir, hmem, ?_⟩
    have hne : (getDomainFromAnnotations ir != "") = true := by
      simpa using hboth m d p hm hd hp
    simp [hne]
  · intro h
    cases hm : ir.GetAnnotations with
    | none => exact Or.inl rfl
    | some m =>
      right
      refine ⟨m, rfl, ?_⟩
      cases hd : List.lookup domainKey m with
      | none => exact Or.inl rfl
      | some d =>
        cases hp : List.lookup pathKey m with
        | none => exact Or.inr rfl
        | some p => exact absurd h (hboth m d p hm hd hp)
  · rintro (h | ⟨m, hm, h⟩)
    · exact getDomainFromAnnotations_of_missing ir (Or.inl (by simp [Unstructured.annotationAt, h]))
    · apply getDomainFromAnnotations_of_missing
      simpa [Unstructured.annotationAt, hm] using h

/-- C9: two resources whose annotations agree on the presence and value of
the domain key and of the path key give the same result, whatever else
their annotation maps hold. -/
theorem getDomainFromAnnotations_only_two_keys (ir1 ir2 : Unstructured)
    (hd : ir1.annotationAt domainKey = ir2.annotationAt domainKey)
    (hp : ir1.annotationAt pathKey = ir2.annotationAt pathKey) :
    getDomainFromAnnotations ir1 = getDomainFromAnnotations ir2 := by
  cases h1 : ir1.annotationAt domainKey with
  | none =>
    rw [getDomainFromAnnotations_of_missing ir1 (Or.inl h1),
      getDomainFromAnnotations_of_missing ir2 (Or.inl (hd ▸ h1))]
  | some d =>
    cases h2 : ir1.annotationAt pathKey with
    | none =>
      rw [getDomainFromAnnotations_of_missing ir1 (Or.inr h2),
        getDomainFromAnnotations_of_missing ir2 (Or.inr (hp ▸ h2))]
    | some p =>
      rw [getDomainFromAnnotations_of_both ir1 d p h1 h2,
        getDomainFromAnnotations_of_both ir2 d p (hd ▸ h1) (hp ▸ h2)]

/-- C9 at two resources that differ in name, in the order of the two keys and
in a third annotation. -/
theorem getDomainFromAnnotations_only_two_keys_witness :
    getDomainFromAnnotations
        ⟨"a", some [("owner", "team-1"), (domainKey, "t.example.com/"), (pathKey, "/health")]⟩ =
      getDomainFromAnnotations
        ⟨"b", some [(pathKey, "/health"), (domainKey, "t.example.com/")]⟩ :=
  getDomainFromAnnotations_only_two_keys
    ⟨"a", some [("owner", "team-1"), (domainKey, "t.example.com/"), (pathKey, "/health")]⟩
    ⟨"b", some [(pathKey, "/health"), (domainKey, "t.example.com/")]⟩
    (by decide) (by decide)

/-! ## The probe: claim C3 -/

/-- C3: `getDomainStatus` returns 1 exactly when the GET produced a response
with status code 200; for every transport error and every other status code
it returns 0; the result is always 0 or 1. -/
theorem getDomainStatus_classification (get : String → GetOutcome) (domain : String) :
    (getDomainStatus get domain = 1 ↔ get ("https://" ++ domain) = .response 200) ∧
    (∀ err, get ("https://" ++ domain) = .transportError err →
      getDomainStatus get domain = 0) ∧
    (∀ code : Int, code ≠ 200 → get ("https://" ++ domain) = .response code →
      getDomainStatus get domain = 0) ∧
    (getDomainStatus get domain = 0 ∨ getDomainStatus get domain = 1) := by
  unfold getDomainStatus StatusOK
  cases h : get ("https://" ++ domain) with
  | transportError e => simp
  | response code =>
    by_cases hc : code = 200
    · subst hc
      simp
      intro code hne heq
      exact hne heq.symm
    · simp [hc]

/-! ## Lemmas on maps and on the phases of a cycle -/

theorem GoMap.mem_keys_set {V : Type} (m : GoMap V) (a : String) (v : V) (k : String) :
    k ∈ (m.set a v).keys ↔ k = a ∨ k ∈ m.keys := by
  simp only [GoMap.set, GoMap.keys, List.map_cons, List.mem_cons, List.mem_map,
    List.mem_filter, bne_iff_ne, ne_eq]
  constructor
  · rintro (h | ⟨e, ⟨he, _⟩, rfl⟩)
    · exact Or.inl h
    · exact Or.inr ⟨e, he, rfl⟩
  · rintro (h | ⟨e, he, rfl⟩)
    · exact Or.inl h
    · by_cases hk : e.1 = a
      · exact Or.inl hk
      · exact Or.inr ⟨e, ⟨he, hk⟩, rfl⟩

theorem GoMap.mem_keys_delete {V : Type} (m : GoMap V) (a : String) (k : String) :
    k ∈ (m.delete a).keys ↔ k ∈ m.keys ∧ k ≠ a := by
  simp only [GoMap.delete, GoMap.keys, List.mem_map, List.mem_filter, bne_iff_ne, ne_eq]
  constructor
  · rintro ⟨e, ⟨he, hne⟩, rfl⟩
    exact ⟨⟨e, he, rfl⟩, hne⟩
  · rintro ⟨⟨e, he, rfl⟩, hne⟩
    exact ⟨e, ⟨he, hne⟩, rfl⟩

theorem GoMap.mem_keys_foldl_delete {V : Type} (ks : List String) (m : GoMap V) (k : String) :
    k ∈ (ks.foldl GoMap.delete m).keys ↔ k ∈ m.keys ∧ k ∉ ks := by
  induction ks generalizing m with
  | nil => simp
  | cons a ks ih =>
    rw [List.foldl_cons, ih, GoMap.mem_keys_delete]
    simp only [List.mem_cons, not_or]
    tauto

theorem GoMap.eq_nil_of_keys {V : Type} (m : GoMap V) (h : ∀ k, k ∉ m.keys) : m = [] := by
  cases m with
  | nil => rfl
  | cons e m => exact absurd (List.mem_cons_self _ _) (h e.1)

theorem probeAll_tenantUpMetric_keys (c : Cluster) (received : List String) (st : State)
    (k : String) :
    k ∈ (probeAll c st received).tenantUpMetric.keys ↔
      k ∈ st.tenantUpMetric.keys ∨ k ∈ received := by
  induction received generalizing st with
  | nil => simp [probeAll]
  | cons d ds ih =>
    have hstep : probeAll c st (d :: ds) = probeAll c (probe c st d) ds := rfl
    rw [hstep, ih]
    simp only [probe, GoMap.mem_keys_set, List.mem_cons]
    tauto

theorem probeAll_domainsMap_keys (c : Cluster) (received : List String) (st : State)
    (k : String) :
    k ∈ (probeAll c st received).domainsMap.keys ↔
      k ∈ st.domainsMap.keys ∨ k ∈ received := by
  induction received generalizing st with
  | nil => simp [probeAll]
  | cons d ds ih =>
    have hstep : probeAll c st (d :: ds) = probeAll c (probe c st d) ds := rfl
    rw [hstep, ih]
    simp only [probe, GoMap.mem_keys_set, List.mem_cons]
    tauto

/-- On a drained channel every lookup fails, so the loop deletes each key it
visits from both maps. -/
theorem reconcile_drained (ks : List String) (st : State) :
    ks.foldl reconcileStep (⟨[]⟩, st) =
      (⟨[]⟩, { tenantUpMetric := ks.foldl GoMap.delete st.tenantUpMetric
               domainsMap := ks.foldl GoMap.delete st.domainsMap }) := by
  induction ks generalizing st with
  | nil => rfl
  | cons a ks ih =>
    have hstep : reconcileStep (⟨[]⟩, st) a =
        (⟨[]⟩, { tenantUpMetric := st.tenantUpMetric.delete a
                 domainsMap := st.domainsMap.delete a }) := rfl
    rw [List.foldl_cons, hstep, ih]
    rfl

theorem cycleBody_eq (c : Cluster) (st : State) (sent : List String) :
    cycleBody c st sent =
      { tenantUpMetric := (probeAll c st sent).domainsMap.keys.foldl GoMap.delete
          (probeAll c st sent).tenantUpMetric
        domainsMap := (probeAll c st sent).domainsMap.keys.foldl GoMap.delete
          (probeAll c st sent).domainsMap } := by
  simp only [cycleBody, Chan.rangeAll, reconcile]
  rw [reconcile_drained]

theorem cycleBody_domainsMap (c : Cluster) (st : State) (sent : List String) :
    (cycleBody c st sent).domainsMap = [] := by
  apply GoMap.eq_nil_of_keys
  intro k
  rw [cycleBody_eq, GoMap.mem_keys_foldl_delete]
  tauto

theorem cycleBody_tenantUpMetric_keys (c : Cluster) (st : State) (sent : List String)
    (k : String) :
    k ∈ (cycleBody c st sent).tenantUpMetric.keys ↔
      k ∈ st.tenantUpMetric.keys ∧ k ∉ st.domainsMap.keys ∧ k ∉ sent := by
  rw [cycleBody_eq, GoMap.mem_keys_foldl_delete, probeAll_tenantUpMetric_keys,
    probeAll_domainsMap_keys]
  tauto

/-- When every list call returns a list, the cycle runs to its end. -/
theorem cycle_of_sends (c : Cluster) (st : State) (sent : List String)
    (h : sends c = .ok sent) : cycle c st = .ok (cycleBody c st sent) := by
  simp [cycle, h, bind, Except.bind, pure, Except.pure]

/-! ## Discovery failures: claims C7, C8 -/

/-- C7: when the namespace list call returns an error and a nil list, the
cycle does not treat it as zero namespaces: `namespaceList.Items`
dereferences nil, the cycle panics whatever the rest of the cluster answers
and whatever the state, and no later cycle runs. -/
theorem cycle_namespace_list_failure_panics (err : Option String)
    (ingressRoutes : String → ListResult) (get : String → GetOutcome) (st : State)
    (later : List Cluster) :
    cycle ⟨⟨none, err⟩, ingressRoutes, get⟩ st = .error .nilDereference ∧
    runCycles (⟨⟨none, err⟩, ingressRoutes, get⟩ :: later) st = .error .nilDereference :=
  ⟨rfl, rfl⟩

/-- C8: in `clusterOneNamespaceFails` the task of namespace `b` alone would
send `a.example.com/x`, but the task of namespace `a`, whose list call
failed, dereferences the nil list: the cycle panics and nothing is
reconciled. -/
theorem cycle_resource_list_failure_panics :
    namespaceTask clusterOneNamespaceFails "b" = .ok ["a.example.com/x"] ∧
    namespaceTask clusterOneNamespaceFails "a" = .error .nilDereference ∧
    sends clusterOneNamespaceFails = .error .nilDereference ∧
    cycle clusterOneNamespaceFails emptyState = .error .nilDereference := by
  refine ⟨?_, ?_, ?_, ?_⟩ <;> rfl

/-! ## Reconciliation: claims C4, C5, C6, C10 -/

/-- C10: after the receiving loop, `domainChan` yields nothing, so the lookup
of the reconciliation loop finds no key; for every state and every sequence
of values sent in the cycle, the registry is empty after reconciliation and
no key that was in the registry when reconciliation began, be it from the
starting registry or probed in this cycle, has a series left. -/
theorem reconcile_deletes_every_key (c : Cluster) (st : State) (sent : List String) :
    (∀ domain, (Chan.rangeFind domain (Chan.rangeAll ⟨sent⟩).2.pending).1 = false) ∧
    (cycleBody c st sent).domainsMap = [] ∧
    (∀ k, k ∈ (probeAll c st sent).domainsMap.keys →
      k ∉ (cycleBody c st sent).tenantUpMetric.keys) ∧
    (∀ d, d ∈ sent → d ∈ (probeAll c st sent).domainsMap.keys ∧
      d ∉ (cycleBody c st sent).domainsMap.keys ∧
      d ∉ (cycleBody c st sent).tenantUpMetric.keys) := by
  refine ⟨fun _ => rfl, cycleBody_domainsMap c st sent, ?_, ?_⟩
  · intro k hk
    rw [probeAll_domainsMap_keys] at hk
    rw [cycleBody_tenantUpMetric_keys]
    tauto
  · intro d hd
    refine ⟨?_, ?_, ?_⟩
    · rw [probeAll_domainsMap_keys]
      exact Or.inr hd
    · simp [cycleBody_domainsMap, GoMap.keys]
    · rw [cycleBody_tenantUpMetric_keys]
      tauto

/-- C4: in `clusterOneRoute`, starting from the empty state, the cycle
extracts exactly `a.example.com/x` and probes it, which puts it in the
registry; the cycle runs to its end, and the registry it leaves is empty, so
it is not the extracted set. -/
theorem cycle_registry_differs_from_extracted :
    sends clusterOneRoute = .ok ["a.example.com/x"] ∧
    "a.example.com/x" ∈
      (probeAll clusterOneRoute emptyState ["a.example.com/x"]).domainsMap.keys ∧
    ∃ st, cycle clusterOneRoute emptyState = .ok st ∧ st.domainsMap.keys = [] ∧
      "a.example.com/x" ∉ st.domainsMap.keys := by
  have hs : sends clusterOneRoute = .ok ["a.example.com/x"] := rfl
  refine ⟨hs, ?_, _, cycle_of_sends _ _ _ hs, ?_, ?_⟩
  · rw [probeAll_domainsMap_keys]
    exact Or.inr (List.mem_singleton.mpr rfl)
  · simp [cycleBody_domainsMap, GoMap.keys]
  · simp [cycleBody_domainsMap, GoMap.keys]

/-- C5: a key `K` that is in the registry when a cycle starts and is not among
the values extracted in that cycle is, after the cycle's reconciliation,
neither in the registry nor among the labels of the gauge vector. -/
theorem stale_key_removed (c : Cluster) (st : State) (sent : List String) (K : String)
    (hK : K ∈ st.domainsMap.keys) (_hsent : K ∉ sent) :
    K ∉ (cycleBody c st sent).domainsMap.keys ∧
    K ∉ (cycleBody c st sent).tenantUpMetric.keys := by
  constructor
  · simp [cycleBody_domainsMap, GoMap.keys]
  · rw [cycleBody_tenantUpMetric_keys]
    tauto

/-- C5 at `staleState`, key `old.example.com/`, in a cycle that extracts only
`a.example.com/x`. -/
theorem stale_key_removed_witness :
    "old.example.com/" ∈ staleState.domainsMap.keys ∧
    "old.example.com/" ∉ (cycleBody clusterOneRoute staleState ["a.example.com/x"]).domainsMap.keys ∧
    "old.example.com/" ∉
      (cycleBody clusterOneRoute staleState ["a.example.com/x"]).tenantUpMetric.keys :=
  ⟨by decide,
    stale_key_removed clusterOneRoute staleState ["a.example.com/x"] "old.example.com/"
      (by decide) (by decide)⟩

/-- C6: from a state in which the labels of the gauge vector and the keys of
the registry are the same set, they are the same set after the probes of a
cycle have completed, and again after the cycle's reconciliation. -/
theorem gauge_registry_correspondence (c : Cluster) (st : State) (sent : List String)
    (h : ∀ k, k ∈ st.tenantUpMetric.keys ↔ k ∈ st.domainsMap.keys) :
    (∀ k, k ∈ (probeAll c st sent).tenantUpMetric.keys ↔
      k ∈ (probeAll c st sent).domainsMap.keys) ∧
    (∀ k, k ∈ (cycleBody c st sent).tenantUpMetric.keys ↔
      k ∈ (cycleBody c st sent).domainsMap.keys) := by
  constructor
  · intro k
    rw [probeAll_tenantUpMetric_keys, probeAll_domainsMap_keys, h k]
  · intro k
    rw [cycleBody_tenantUpMetric_keys, cycleBody_domainsMap, h k]
    simp only [GoMap.keys, List.map_nil, List.not_mem_nil, iff_false]
    tauto

/-- C6 at `staleState`, in a cycle that extracts `a.example.com/x`. -/
theorem gauge_registry_correspondence_witness :
    (∀ k, k ∈ staleState.tenantUpMetric.keys ↔ k ∈ staleState.domainsMap.keys) ∧
    (∀ k, k ∈ (probeAll clusterOneRoute staleState ["a.example.com/x"]).tenantUpMetric.keys ↔
      k ∈ (probeAll clusterOneRoute staleState ["a.example.com/x"]).domainsMap.keys) ∧
    (∀ k, k ∈ (cycleBody clusterOneRoute staleState ["a.example.com/x"]).tenantUpMetric.keys ↔
      k ∈ (cycleBody clusterOneRoute staleState ["a.example.com/x"]).domainsMap.keys) :=
  ⟨fun _ => Iff.rfl,
    gauge_registry_correspondence clusterOneRoute staleState ["a.example.com/x"]
      (fun _ => Iff.rfl)⟩

end Exporter
